import Mathlib

/-!
Shallow embedding of the trimui-inputd-proxy repository.

The repository ships two near-duplicate variants of the same program:

* `src/trimui_inputd_proxy.c` — embedded below in namespace `FfProxy`
  (max-of-magnitudes policy, default duration 200 ms, ceiling 5000 ms,
  no software PWM: the gate is driven directly from `rumble_play_effect`);
* `src/unnamed/part_000` — embedded below in namespace `PwmProxy`
  (sum-of-magnitudes policy, deadzone 2000, PWM threshold 40000,
  safety ceiling 3000 ms, software PWM in `rumble_tick`).

Shared pieces (the `ff_effect` record, `struct timespec` arithmetic and the
debounced GPIO sink, which are textually the same in both files) are defined
once at top level.  Machine integers are modelled by `Nat`/`Int`: every
arithmetic expression of the C source stays far below its C type's range
(magnitudes are `__u16`, so `strong + weak ≤ 131070` fits `uint32_t`, and
`mag * 100 ≤ 6553500` fits `uint32_t`), so no wraparound is dropped.
The GPIO state carries two ghost logs used only by the theorems:
`cmds` records the argument of every `gpio_set`/`gpio_set_rumble` call
(the command stream, including debounced calls) and `writes` records the
`write(2)` calls actually issued to the sysfs file.
-/

/-- Linux input constant FF_RUMBLE = 0x50. -/
def FF_RUMBLE : Nat := 80

/-- Linux errno ENOSPC = 28 (the C code returns -ENOSPC). -/
def ENOSPC : Int := 28

/-- Linux errno EINVAL = 22 (the C code returns -EINVAL). -/
def EINVAL : Int := 22

/-- Model of `struct timespec` under CLOCK_MONOTONIC (non-negative). -/
structure Timespec where
  sec : Nat
  nsec : Nat
deriving DecidableEq, Repr

/-- Embeds `timespec_add_ms` (identical in both source files). -/
def timespec_add_ms (ts : Timespec) (ms : Nat) : Timespec :=
  let sec := ts.sec + ms / 1000
  let nsec := ts.nsec + (ms % 1000) * 1000000
  if nsec ≥ 1000000000 then ⟨sec + 1, nsec - 1000000000⟩ else ⟨sec, nsec⟩

/-- Embeds `timespec_after(a, b)` of `trimui_inputd_proxy.c`: true when
time `a` is at or past time `b`. -/
def timespec_after (a b : Timespec) : Bool :=
  if a.sec ≠ b.sec then decide (a.sec > b.sec) else decide (a.nsec ≥ b.nsec)

/-- Embeds `timespec_passed(stop_at)` of `part_000`, with the ambient
`clock_gettime(CLOCK_MONOTONIC)` reading passed in as `now`. -/
def timespec_passed (now stop_at : Timespec) : Bool :=
  if now.sec ≠ stop_at.sec then decide (now.sec > stop_at.sec)
  else decide (now.nsec ≥ stop_at.nsec)

/-- Specification-level order on (normalized) monotonic instants:
`ts_le a b` says instant `a` is at or before instant `b`. -/
def ts_le (a b : Timespec) : Prop :=
  a.sec < b.sec ∨ (a.sec = b.sec ∧ a.nsec ≤ b.nsec)

instance (a b : Timespec) : Decidable (ts_le a b) := by
  unfold ts_le; infer_instance

/-- Model of the GPIO globals `g_gpio_fd` / `g_gpio_last_state` of both
source files.  `fd_ok` abstracts `g_gpio_fd >= 0` (whether `gpio_init`'s
`open` succeeded).  `writes` is a ghost log of the `write(2)` calls issued
(the written character, as 0/1); the C code discards the result of `write`,
so the post-state never depends on whether the write succeeded.  `cmds` is a
ghost log of the argument of every set call, recorded before the debounce
check. -/
structure GpioState where
  fd_ok : Bool
  last_state : Int
  writes : List Int
  cmds : List Int
deriving DecidableEq, Repr

/-- Embeds `gpio_set(int state)` of `part_000`: debounce on
`g_gpio_last_state`, best-effort write, cache update. -/
def gpio_set (g : GpioState) (state : Int) : GpioState :=
  if state = g.last_state then { g with cmds := g.cmds ++ [state] }
  else if g.fd_ok then
    { g with cmds := g.cmds ++ [state], writes := g.writes ++ [state],
             last_state := state }
  else { g with cmds := g.cmds ++ [state], last_state := state }

/-- Embeds `gpio_set_rumble(bool active)` of `trimui_inputd_proxy.c`:
`new_state = active ? 1 : 0`, then the same debounce/write/cache logic as
`gpio_set`. -/
def gpio_set_rumble (g : GpioState) (active : Bool) : GpioState :=
  let new_state : Int := if active then 1 else 0
  if new_state = g.last_state then { g with cmds := g.cmds ++ [new_state] }
  else if g.fd_ok then
    { g with cmds := g.cmds ++ [new_state], writes := g.writes ++ [new_state],
             last_state := new_state }
  else { g with cmds := g.cmds ++ [new_state], last_state := new_state }

/-- GPIO state right after `gpio_init` (`g_gpio_last_state` starts at -1). -/
def gpio0 (fd : Bool) : GpioState := ⟨fd, -1, [], []⟩

/-- Model of the fields of `struct ff_effect` the program reads:
`type` (`__u16`), `id` (`__s16`, negative means the caller supplied no
identifier), the rumble magnitudes (`__u16`) and `replay.length` (`__u16`). -/
structure FFEffect where
  type : Nat
  id : Int
  strong_magnitude : Nat
  weak_magnitude : Nat
  replay_length : Nat
deriving DecidableEq, Repr

/-- Embeds `rumble_slot_t` (identical in both source files). -/
structure RumbleSlot where
  effect : FFEffect
  in_use : Bool
deriving DecidableEq, Repr

/-- Zero-initialized effect (both programs `memset`/zero-init their state). -/
def effect0 : FFEffect := ⟨0, 0, 0, 0, 0⟩

/-- Zero-initialized slot. -/
def slot0 : RumbleSlot := ⟨effect0, false⟩

/-- Embeds the free-slot scan `for (i...) if (!slots[i].in_use) { id = i; break; }`
of `rumble_upload` / `rumble_upload_effect`: index of the first slot not in
use, if any. -/
def firstFreeIdx : List RumbleSlot → Option Nat
  | [] => none
  | s :: rest => if s.in_use = false then some 0 else (firstFreeIdx rest).map (· + 1)

/-- Control messages the main loop drains from the virtual device before each
tick: `UI_FF_UPLOAD`, `UI_FF_ERASE`, and `EV_FF` events with code ≠ FF_GAIN
(which carry an effect id and a repeat value). -/
inductive Msg where
  | upload (eff : FFEffect)
  | erase (id : Int)
  | play (id : Int) (val : Int)
deriving DecidableEq, Repr

/-- Ghost-log relation: `g'` extends `g` with gpio commands that are all
off-commands (argument 0).  Used to state that a code region never commands
the actuator on. -/
def GpioExtOff (g g' : GpioState) : Prop :=
  ∃ zs, g'.cmds = g.cmds ++ zs ∧ ∀ z ∈ zs, z = 0

namespace PwmProxy

/-- Constant RUMBLE_MAX_EFFECTS of `part_000`. -/
def RUMBLE_MAX_EFFECTS : Nat := 16

/-- Constant RUMBLE_DEADZONE of `part_000`. -/
def RUMBLE_DEADZONE : Nat := 2000

/-- Constant PWM_THRESHOLD of `part_000`. -/
def PWM_THRESHOLD : Nat := 40000

/-- Constant SAFETY_TIMEOUT_MS of `part_000`. -/
def SAFETY_TIMEOUT_MS : Nat := 3000

/-- Embeds `rumble_ctx_t` of `part_000` (slot table, active flag, combined
magnitude, absolute stop time, PWM phase counter). -/
structure RumbleCtx where
  slots : List RumbleSlot
  active : Bool
  magnitude : Nat
  stop_time : Timespec
  pwm_counter : Nat
deriving DecidableEq, Repr

/-- Program state relevant to the rumble path: the rumble context plus the
GPIO globals the rumble functions call into. -/
structure St where
  ctx : RumbleCtx
  gpio : GpioState
deriving DecidableEq, Repr

/-- Zero-initialized `rumble_ctx_t rumble = {0}` of `part_000`'s `main`. -/
def initCtx : RumbleCtx := ⟨List.replicate 16 slot0, false, 0, ⟨0, 0⟩, 0⟩

/-- State right after startup (`gpio_init` plus zero-initialized context). -/
def initSt (fd : Bool) : St := ⟨initCtx, gpio0 fd⟩

/-- Embeds `rumble_upload` of `part_000`.  Returns the new context, the
effect as written back to the caller (`eff->id` is normalized to the chosen
slot), and the C return code. -/
def rumble_upload (ctx : RumbleCtx) (eff : FFEffect) : RumbleCtx × FFEffect × Int :=
  if eff.type ≠ FF_RUMBLE then (ctx, eff, 0)
  else if eff.id < 0 then
    match firstFreeIdx ctx.slots with
    | none => (ctx, eff, -ENOSPC)
    | some i =>
        ({ ctx with slots := ctx.slots.set i ⟨{ eff with id := (i : Int) }, true⟩ },
         { eff with id := (i : Int) }, 0)
  else if (RUMBLE_MAX_EFFECTS : Int) ≤ eff.id then (ctx, eff, -EINVAL)
  else
    ({ ctx with slots := ctx.slots.set eff.id.toNat ⟨{ eff with id := eff.id }, true⟩ },
     { eff with id := eff.id }, 0)

/-- Embeds `rumble_erase` of `part_000` (the C function always returns 0,
which no caller inspects, so the return code is dropped). -/
def rumble_erase (s : St) (id : Int) : St :=
  if 0 ≤ id ∧ id < (RUMBLE_MAX_EFFECTS : Int) then
    { s with
      ctx := { s.ctx with
        slots := s.ctx.slots.set id.toNat
          { (s.ctx.slots.getD id.toNat slot0) with in_use := false },
        active := false },
      gpio := gpio_set s.gpio 0 }
  else s

/-- Embeds `rumble_play` of `part_000`, with the ambient
`clock_gettime(CLOCK_MONOTONIC)` reading passed in as `now`. -/
def rumble_play (s : St) (id : Int) (val : Int) (now : Timespec) : St :=
  if val = 0 then
    { s with ctx := { s.ctx with active := false }, gpio := gpio_set s.gpio 0 }
  else if id < 0 ∨ (RUMBLE_MAX_EFFECTS : Int) ≤ id ∨
      (s.ctx.slots.getD id.toNat slot0).in_use = false then s
  else if (s.ctx.slots.getD id.toNat slot0).effect.strong_magnitude +
      (s.ctx.slots.getD id.toNat slot0).effect.weak_magnitude < RUMBLE_DEADZONE then
    { s with ctx := { s.ctx with active := false }, gpio := gpio_set s.gpio 0 }
  else
    let e := (s.ctx.slots.getD id.toNat slot0).effect
    let mag := e.strong_magnitude + e.weak_magnitude
    let dur := if e.replay_length = 0 ∨ e.replay_length > SAFETY_TIMEOUT_MS
               then SAFETY_TIMEOUT_MS else e.replay_length
    let t := timespec_add_ms now dur
    let c := { s.ctx with magnitude := mag, stop_time := t, active := true }
    { s with ctx := c }

/-- Embeds `rumble_tick` of `part_000`, with the clock reading passed as
`now`. -/
def rumble_tick (s : St) (now : Timespec) : St :=
  if s.ctx.active = false then { s with gpio := gpio_set s.gpio 0 }
  else if timespec_passed now s.ctx.stop_time then
    { s with ctx := { s.ctx with active := false }, gpio := gpio_set s.gpio 0 }
  else if s.ctx.magnitude ≥ PWM_THRESHOLD then
    { s with gpio := gpio_set s.gpio 1 }
  else
    let c := s.ctx.pwm_counter + 1
    { s with ctx := { s.ctx with pwm_counter := c },
             gpio := gpio_set s.gpio (if c % 4 < 2 then 1 else 0) }

/-- Dispatch of one drained virtual-device event, as in `part_000`'s `main`
(upload and erase via the `UI_FF_*` ioctl handshake, `EV_FF` to
`rumble_play`).  Each message carries the monotonic instant at which it is
processed. -/
def step (s : St) (m : Msg) (now : Timespec) : St :=
  match m with
  | .upload eff => { s with ctx := (rumble_upload s.ctx eff).1 }
  | .erase id => rumble_erase s id
  | .play id val => rumble_play s id val now

/-- Embeds one iteration of `part_000`'s main loop: drain every pending
virtual-device control message, then (event forwarding does not touch the
rumble or GPIO state) call `rumble_tick` exactly once. -/
def loop_iteration (s : St) (msgs : List (Msg × Timespec)) (now : Timespec) : St :=
  rumble_tick (msgs.foldl (fun a mt => step a mt.1 mt.2) s) now

end PwmProxy

namespace FfProxy

/-- Constant RUMBLE_MAX_EFFECTS of `trimui_inputd_proxy.c`. -/
def RUMBLE_MAX_EFFECTS : Nat := 16

/-- Constant RUMBLE_STRENGTH of `trimui_inputd_proxy.c`. -/
def RUMBLE_STRENGTH : Nat := 100

/-- Constant RUMBLE_MAX_DURATION_MS of `trimui_inputd_proxy.c`. -/
def RUMBLE_MAX_DURATION_MS : Nat := 5000

/-- Embeds `rumble_state_t` of `trimui_inputd_proxy.c`. -/
structure RumbleState where
  slots : List RumbleSlot
  rumble_active : Bool
  stop_time : Timespec
deriving DecidableEq, Repr

/-- Program state relevant to the rumble path of `trimui_inputd_proxy.c`. -/
structure St where
  rs : RumbleState
  gpio : GpioState
deriving DecidableEq, Repr

/-- Zero-initialized state as produced by `rumble_state_init` (`memset 0`). -/
def initRs : RumbleState := ⟨List.replicate 16 slot0, false, ⟨0, 0⟩⟩

/-- State right after startup. -/
def initSt (fd : Bool) : St := ⟨initRs, gpio0 fd⟩

/-- Embeds `rumble_upload_effect` of `trimui_inputd_proxy.c` (textually the
same algorithm as `PwmProxy.rumble_upload`). -/
def rumble_upload_effect (rs : RumbleState) (eff : FFEffect) :
    RumbleState × FFEffect × Int :=
  if eff.type ≠ FF_RUMBLE then (rs, eff, 0)
  else if eff.id < 0 then
    match firstFreeIdx rs.slots with
    | none => (rs, eff, -ENOSPC)
    | some i =>
        ({ rs with slots := rs.slots.set i ⟨{ eff with id := (i : Int) }, true⟩ },
         { eff with id := (i : Int) }, 0)
  else if (RUMBLE_MAX_EFFECTS : Int) ≤ eff.id then (rs, eff, -EINVAL)
  else
    ({ rs with slots := rs.slots.set eff.id.toNat ⟨{ eff with id := eff.id }, true⟩ },
     { eff with id := eff.id }, 0)

/-- Embeds `rumble_erase_effect` of `trimui_inputd_proxy.c`. -/
def rumble_erase_effect (s : St) (effect_id : Int) : St :=
  if 0 ≤ effect_id ∧ effect_id < (RUMBLE_MAX_EFFECTS : Int) then
    { s with
      rs := { s.rs with
        slots := s.rs.slots.set effect_id.toNat
          { (s.rs.slots.getD effect_id.toNat slot0) with in_use := false },
        rumble_active := false },
      gpio := gpio_set_rumble s.gpio false }
  else s

/-- Embeds `rumble_play_effect` of `trimui_inputd_proxy.c` (note: unlike
`PwmProxy.rumble_play`, a stop with an out-of-range or unused id falls into
the early returns, and arming commands the GPIO on immediately). -/
def rumble_play_effect (s : St) (effect_id : Int) (rpt : Int) (now : Timespec) : St :=
  if RUMBLE_STRENGTH = 0 then s
  else if rpt = 0 ∧ s.rs.rumble_active = false then s
  else if effect_id < 0 ∨ (RUMBLE_MAX_EFFECTS : Int) ≤ effect_id then s
  else if (s.rs.slots.getD effect_id.toNat slot0).in_use = false then s
  else
    let e := (s.rs.slots.getD effect_id.toNat slot0).effect
    let mag := if e.weak_magnitude > e.strong_magnitude
               then e.weak_magnitude else e.strong_magnitude
    let scaled := mag * RUMBLE_STRENGTH / 100
    if scaled = 0 ∨ rpt = 0 then
      { s with rs := { s.rs with rumble_active := false },
               gpio := gpio_set_rumble s.gpio false }
    else
      let dur := e.replay_length
      let dur := if dur = 0 then 200 else dur
      let dur := if dur > RUMBLE_MAX_DURATION_MS then RUMBLE_MAX_DURATION_MS else dur
      let t := timespec_add_ms now dur
      let rs := { s.rs with stop_time := t, rumble_active := true }
      { s with rs := rs, gpio := gpio_set_rumble s.gpio true }

/-- Embeds `rumble_tick` of `trimui_inputd_proxy.c`: pure watchdog, no PWM,
and no off-command when already inactive. -/
def rumble_tick (s : St) (now : Timespec) : St :=
  if s.rs.rumble_active = false then s
  else if timespec_after now s.rs.stop_time then
    { s with rs := { s.rs with rumble_active := false },
             gpio := gpio_set_rumble s.gpio false }
  else s

/-- Dispatch of one drained virtual-device event, as in `process_ff_events`. -/
def step (s : St) (m : Msg) (now : Timespec) : St :=
  match m with
  | .upload eff => { s with rs := (rumble_upload_effect s.rs eff).1 }
  | .erase id => rumble_erase_effect s id
  | .play id val => rumble_play_effect s id val now

/-- Embeds one iteration of `trimui_inputd_proxy.c`'s main loop: drain all
pending virtual-device control messages (`process_ff_events`), then call
`rumble_tick` exactly once. -/
def loop_iteration (s : St) (msgs : List (Msg × Timespec)) (now : Timespec) : St :=
  rumble_tick (msgs.foldl (fun a mt => step a mt.1 mt.2) s) now

end FfProxy

/-! Concrete fixtures used by witnesses and counterexamples. -/

/-- Rumble effect uploaded with no caller-supplied identifier (`id = -1`),
strong magnitude 50000, requested duration 100 ms. -/
def effNew : FFEffect := ⟨80, -1, 50000, 0, 100⟩

/-- The same effect as stored in slot 0 (identifier normalized to 0). -/
def effBig : FFEffect := ⟨80, 0, 50000, 0, 100⟩

/-- Slot table with slot 0 in use holding `effBig`, all other slots free. -/
def tbl1 : List RumbleSlot := (List.replicate 16 slot0).set 0 ⟨effBig, true⟩

/-- Full slot table (all 16 slots in use). -/
def tblFull : List RumbleSlot := List.replicate 16 ⟨effect0, true⟩

/-- Full PwmProxy context (for the capacity-exhaustion claim). -/
def ctxFull : PwmProxy.RumbleCtx := ⟨tblFull, false, 0, ⟨0, 0⟩, 0⟩

/-- Upload request carrying no identifier. -/
def effNoId : FFEffect := ⟨80, -1, 9, 9, 9⟩

/-- Upload request carrying the out-of-range identifier 20. -/
def effBadId : FFEffect := ⟨80, 20, 9, 9, 9⟩

/-- Upload request carrying the in-range identifier 0. -/
def effOver : FFEffect := ⟨80, 0, 11, 22, 33⟩

/-- PwmProxy state with `tbl1`, idle, gpio open and last commanded off. -/
def pwmSt : PwmProxy.St := ⟨⟨tbl1, false, 0, ⟨0, 0⟩, 0⟩, ⟨true, 0, [], []⟩⟩

/-- PwmProxy state actively rumbling at full drive intensity. -/
def pwmHigh : PwmProxy.St := ⟨⟨tbl1, true, 50000, ⟨10, 0⟩, 0⟩, ⟨true, 0, [], []⟩⟩

/-- PwmProxy state actively rumbling at a mid intensity, phase counter 5. -/
def pwmMid : PwmProxy.St := ⟨⟨tbl1, true, 3000, ⟨10, 0⟩, 5⟩, ⟨true, 1, [], []⟩⟩

/-- PwmProxy state actively rumbling (for the erase claim). -/
def pwmAct : PwmProxy.St := ⟨⟨tbl1, true, 50000, ⟨9, 9⟩, 2⟩, ⟨true, 1, [1], [1]⟩⟩

/-- PwmProxy context with extra non-slot state set (for the upload claim). -/
def pwmCtx9 : PwmProxy.RumbleCtx := ⟨tbl1, true, 123, ⟨7, 7⟩, 9⟩

/-- FfProxy state actively rumbling (for the erase claim). -/
def ffAct : FfProxy.St := ⟨⟨tbl1, true, ⟨9, 9⟩⟩, ⟨true, 1, [1], [1]⟩⟩

/-- Reachable FfProxy state: one effect uploaded (assigned slot 0). -/
def ffUploaded : FfProxy.St := FfProxy.step (FfProxy.initSt true) (Msg.upload effNew) ⟨0, 0⟩

/-- Reachable FfProxy state: effect uploaded then armed by play(0, 1). -/
def ffArmed : FfProxy.St := FfProxy.step ffUploaded (Msg.play 0 1) ⟨0, 0⟩

/-- Table invariant of the effect store: 16 slots, and every slot that is in
use holds an effect whose identifier equals the slot's index. -/
def SlotsInv (c : PwmProxy.RumbleCtx) : Prop :=
  c.slots.length = 16 ∧
  ∀ i, i < 16 → (c.slots.getD i slot0).in_use = true →
    (c.slots.getD i slot0).effect.id = (i : Int)

/-! Helper lemmas about lists, the free-slot scan and the GPIO sink. -/

theorem getD_set_self {α : Type} (l : List α) (i : Nat) (a d : α) (h : i < l.length) :
    (l.set i a).getD i d = a := by
  induction l generalizing i with
  | nil => exact absurd h (Nat.not_lt_zero i)
  | cons x xs ih =>
    cases i with
    | zero => rfl
    | succ n =>
      simp only [List.set_cons_succ, List.getD_cons_succ]
      exact ih n (by simpa using h)

theorem getD_set_of_ne {α : Type} (l : List α) {i j : Nat} (a d : α) (h : i ≠ j) :
    (l.set i a).getD j d = l.getD j d := by
  induction l generalizing i j with
  | nil => rfl
  | cons x xs ih =>
    cases i with
    | zero =>
      cases j with
      | zero => exact absurd rfl h
      | succ m => rfl
    | succ n =>
      cases j with
      | zero => rfl
      | succ m =>
        simp only [List.set_cons_succ, List.getD_cons_succ]
        exact ih (fun hh => h (by rw [hh]))

theorem getD_replicate {α : Type} (n i : Nat) (a : α) :
    (List.replicate n a).getD i a = a := by
  induction n generalizing i with
  | zero => rfl
  | succ m ih =>
    cases i with
    | zero => rfl
    | succ k => simp [ih k]

theorem firstFreeIdx_lt_length {l : List RumbleSlot} {i : Nat}
    (h : firstFreeIdx l = some i) : i < l.length := by
  induction l generalizing i with
  | nil => simp [firstFreeIdx] at h
  | cons s rest ih =>
    by_cases hs : s.in_use = false
    · rw [firstFreeIdx, if_pos hs] at h
      simp only [Option.some.injEq] at h
      simp [← h]
    · rw [firstFreeIdx, if_neg hs] at h
      cases hm : firstFreeIdx rest with
      | none => rw [hm] at h; simp at h
      | some m =>
        rw [hm] at h
        simp only [Option.map_some', Option.some.injEq] at h
        have := ih hm
        simp only [List.length_cons]
        omega

theorem firstFreeIdx_eq_none (l : List RumbleSlot)
    (h : ∀ sl ∈ l, sl.in_use = true) : firstFreeIdx l = none := by
  induction l with
  | nil => rfl
  | cons s rest ih =>
    have hs : s.in_use = true := h s (by simp)
    rw [firstFreeIdx, if_neg (by simp [hs]), ih (fun sl hsl => h sl (by simp [hsl]))]
    rfl

theorem gpio_set_last (g : GpioState) (v : Int) : (gpio_set g v).last_state = v := by
  unfold gpio_set
  split_ifs with h
  · exact h.symm
  · rfl
  · rfl

theorem gpio_set_cmds (g : GpioState) (v : Int) :
    (gpio_set g v).cmds = g.cmds ++ [v] := by
  unfold gpio_set
  split_ifs <;> rfl

theorem gpio_set_writes (g : GpioState) (v : Int) :
    (gpio_set g v).writes =
      if v = g.last_state then g.writes
      else if g.fd_ok then g.writes ++ [v] else g.writes := by
  unfold gpio_set
  split_ifs <;> rfl

theorem gpio_set_rumble_eq (g : GpioState) (b : Bool) :
    gpio_set_rumble g b = gpio_set g (if b then 1 else 0) := rfl

/-! Claim theorems. -/

/-- C7 (amended): calling `gpio_set` with the cached last-commanded value
issues no underlying write and leaves the cache unchanged; two consecutive
calls with the same value issue at most one underlying write in total, and a
single call issues at most one write; a call with a different value records
the new value and issues exactly one write when the control surface was
successfully opened — and none at all otherwise (the original claim's
"exactly one write" fails in that case). -/
theorem gpio_set_debounce (g : GpioState) (v : Int) :
    (v = g.last_state →
      (gpio_set g v).writes = g.writes ∧ (gpio_set g v).last_state = g.last_state)
    ∧ (gpio_set (gpio_set g v) v).writes = (gpio_set g v).writes
    ∧ (gpio_set g v).writes.length ≤ g.writes.length + 1
    ∧ (v ≠ g.last_state →
        (gpio_set g v).last_state = v ∧
        (gpio_set g v).writes = if g.fd_ok then g.writes ++ [v] else g.writes) := by
  refine ⟨fun h => ⟨?_, ?_⟩, ?_, ?_, fun h => ⟨gpio_set_last g v, ?_⟩⟩
  · rw [gpio_set_writes, if_pos h]
  · rw [gpio_set_last, h]
  · rw [gpio_set_writes (gpio_set g v) v, if_pos (gpio_set_last g v).symm]
  · rw [gpio_set_writes]
    split_ifs <;> simp
  · rw [gpio_set_writes, if_neg h]

/-- C7 witness: with the surface open and cache 0, a repeated off-command
writes nothing, and an on-command writes exactly once. -/
theorem gpio_set_debounce_witness :
    (gpio_set ⟨true, 0, [], []⟩ 0).writes = [] ∧
    (gpio_set ⟨true, 0, [], []⟩ 1).writes = [1] := by
  refine ⟨((gpio_set_debounce ⟨true, 0, [], []⟩ 0).1 rfl).1, ?_⟩
  have h := ((gpio_set_debounce ⟨true, 0, [], []⟩ 1).2.2.2 (by decide)).2
  simpa using h

/-- C7 counterexample: when `gpio_init`'s open failed (`g_gpio_fd < 0`), a
set call whose value differs from the cache performs no underlying write,
refuting that such a call performs exactly one write. -/
theorem gpio_set_closed_fd_counterexample :
    (1 : Int) ≠ (GpioState.mk false 0 [] []).last_state ∧
    (gpio_set ⟨false, 0, [], []⟩ 1).writes.length ≠ 1 := by decide

/-- C10: `gpio_set` records the commanded value as the new cache
unconditionally — also when the control surface was never opened (and, since
the C code discards the result of `write(2)`, also when the write fails:
the post-state does not depend on the write's outcome); with the surface
closed no write is issued, and a later call with the same value issues no
write at all, so a failed write is never retried. -/
theorem gpio_set_records_without_write (g : GpioState) (v : Int) :
    (gpio_set g v).last_state = v
    ∧ (g.fd_ok = false → (gpio_set g v).writes = g.writes)
    ∧ (gpio_set (gpio_set g v) v).writes = (gpio_set g v).writes
    ∧ (gpio_set (gpio_set g v) v).last_state = v := by
  refine ⟨gpio_set_last g v, fun h => ?_, ?_, gpio_set_last _ v⟩
  · rw [gpio_set_writes]
    split_ifs with h1 h2
    · rfl
    · exact absurd h2 (by simp [h])
    · rfl
  · rw [gpio_set_writes (gpio_set g v) v, if_pos (gpio_set_last g v).symm]

/-- C10 witness: with the surface never opened, an on-command is cached with
no write issued, and the repeated command writes nothing either. -/
theorem gpio_set_records_without_write_witness :
    (gpio_set ⟨false, -1, [], []⟩ 1).last_state = 1 ∧
    (gpio_set ⟨false, -1, [], []⟩ 1).writes = [] ∧
    (gpio_set (gpio_set ⟨false, -1, [], []⟩ 1) 1).writes = [] := by
  obtain ⟨h1, h2, h3, _⟩ := gpio_set_records_without_write ⟨false, -1, [], []⟩ 1
  exact ⟨h1, h2 rfl, by rw [h3]; exact h2 rfl⟩

/-- C8: for any in-range id, erasing unconditionally deactivates the rumble
state and commands the actuator off, in both source variants — regardless of
whether the erased slot was in use and of which effect armed the current
actuation (the prior state is universally quantified). -/
theorem erase_unconditional_stop (s : PwmProxy.St) (s2 : FfProxy.St) (id : Int)
    (h0 : 0 ≤ id) (h1 : id < (PwmProxy.RUMBLE_MAX_EFFECTS : Int)) :
    (PwmProxy.rumble_erase s id).ctx.active = false
    ∧ (PwmProxy.rumble_erase s id).gpio.last_state = 0
    ∧ (FfProxy.rumble_erase_effect s2 id).rs.rumble_active = false
    ∧ (FfProxy.rumble_erase_effect s2 id).gpio.last_state = 0 := by
  unfold PwmProxy.rumble_erase FfProxy.rumble_erase_effect
  rw [if_pos ⟨h0, h1⟩, if_pos ⟨h0, h1⟩]
  refine ⟨rfl, gpio_set_last _ 0, rfl, ?_⟩
  rw [gpio_set_rumble_eq]
  exact gpio_set_last _ 0

/-- C8 witness: erasing id 3 (a slot not in use) while an actuation armed
from slot 0 is running stops the actuation in both variants. -/
theorem erase_unconditional_stop_witness :
    (PwmProxy.rumble_erase pwmAct 3).ctx.active = false
    ∧ (PwmProxy.rumble_erase pwmAct 3).gpio.last_state = 0
    ∧ (FfProxy.rumble_erase_effect ffAct 3).rs.rumble_active = false
    ∧ (FfProxy.rumble_erase_effect ffAct 3).gpio.last_state = 0 :=
  erase_unconditional_stop pwmAct ffAct 3 (by decide) (by decide)

/-- C9: uploading a rumble effect that carries an in-range identifier always
succeeds and overwrites that slot (also when it was already in use), leaving
every other slot and the whole actuation state — active flag, stored
intensity, armed deadline, phase counter — untouched. -/
theorem upload_valid_id_overwrites (ctx : PwmProxy.RumbleCtx) (eff : FFEffect)
    (htype : eff.type = FF_RUMBLE) (h0 : 0 ≤ eff.id)
    (h1 : eff.id < (PwmProxy.RUMBLE_MAX_EFFECTS : Int)) (hlen : ctx.slots.length = 16) :
    (PwmProxy.rumble_upload ctx eff).2.2 = 0
    ∧ (PwmProxy.rumble_upload ctx eff).2.1 = eff
    ∧ (PwmProxy.rumble_upload ctx eff).1.slots.getD eff.id.toNat slot0 = ⟨eff, true⟩
    ∧ (∀ j, j ≠ eff.id.toNat →
        (PwmProxy.rumble_upload ctx eff).1.slots.getD j slot0 = ctx.slots.getD j slot0)
    ∧ (PwmProxy.rumble_upload ctx eff).1.active = ctx.active
    ∧ (PwmProxy.rumble_upload ctx eff).1.magnitude = ctx.magnitude
    ∧ (PwmProxy.rumble_upload ctx eff).1.stop_time = ctx.stop_time
    ∧ (PwmProxy.rumble_upload ctx eff).1.pwm_counter = ctx.pwm_counter := by
  have hm : (PwmProxy.RUMBLE_MAX_EFFECTS : Int) = 16 := rfl
  unfold PwmProxy.rumble_upload
  rw [if_neg (by simp [htype]), if_neg (by omega), if_neg (by omega)]
  refine ⟨rfl, rfl, ?_, fun j hj => ?_, rfl, rfl, rfl, rfl⟩
  · exact getD_set_self _ _ _ _ (by omega)
  · exact getD_set_of_ne _ _ _ (fun hh => hj hh.symm)

/-- C9 witness: uploading id 0 over the in-use slot 0 of an actively
rumbling context succeeds and replaces only that slot. -/
theorem upload_valid_id_overwrites_witness :
    (PwmProxy.rumble_upload pwmCtx9 effOver).2.2 = 0
    ∧ (PwmProxy.rumble_upload pwmCtx9 effOver).1.slots.getD 0 slot0 = ⟨effOver, true⟩
    ∧ (PwmProxy.rumble_upload pwmCtx9 effOver).1.slots.getD 1 slot0 = pwmCtx9.slots.getD 1 slot0
    ∧ (PwmProxy.rumble_upload pwmCtx9 effOver).1.active = pwmCtx9.active
    ∧ (PwmProxy.rumble_upload pwmCtx9 effOver).1.stop_time = pwmCtx9.stop_time := by
  obtain ⟨ha, -, hb, hc, hd, -, he, -⟩ :=
    upload_valid_id_overwrites pwmCtx9 effOver rfl (by decide) (by decide) (by decide)
  exact ⟨ha, hb, hc 1 (by decide), hd, he⟩

/-- C5: when all 16 slots are in use, an upload of a rumble effect carrying
no identifier (a negative id in the protocol's encoding) fails with -ENOSPC
and returns the context, and the caller's effect, entirely unchanged; an
upload carrying a (necessarily non-negative) identifier at or above the
capacity fails with -EINVAL, likewise without mutating anything. -/
theorem upload_full_table_and_invalid_id (ctx : PwmProxy.RumbleCtx) (eff : FFEffect)
    (htype : eff.type = FF_RUMBLE) :
    ((∀ sl ∈ ctx.slots, sl.in_use = true) → eff.id < 0 →
      PwmProxy.rumble_upload ctx eff = (ctx, eff, -ENOSPC))
    ∧ ((PwmProxy.RUMBLE_MAX_EFFECTS : Int) ≤ eff.id →
      PwmProxy.rumble_upload ctx eff = (ctx, eff, -EINVAL)) := by
  have hm : (PwmProxy.RUMBLE_MAX_EFFECTS : Int) = 16 := rfl
  constructor
  · intro hfull hneg
    unfold PwmProxy.rumble_upload
    rw [if_neg (by simp [htype]), if_pos hneg, firstFreeIdx_eq_none _ hfull]
  · intro hge
    unfold PwmProxy.rumble_upload
    rw [if_neg (by simp [htype]), if_neg (by omega), if_pos hge]

/-- C5 witness: on the full table, an id-less upload yields -ENOSPC and an
upload with id 20 yields -EINVAL, both leaving the table as it was. -/
theorem upload_full_table_and_invalid_id_witness :
    PwmProxy.rumble_upload ctxFull effNoId = (ctxFull, effNoId, -ENOSPC)
    ∧ PwmProxy.rumble_upload ctxFull effBadId = (ctxFull, effBadId, -EINVAL) :=
  ⟨(upload_full_table_and_invalid_id ctxFull effNoId rfl).1 (by decide) (by decide),
   (upload_full_table_and_invalid_id ctxFull effBadId rfl).2 (by decide)⟩

/-! Helper lemmas about the PwmProxy watchdog tick. -/

theorem ts_le_passed (a t : Timespec) (h : ts_le a t) : timespec_passed t a = true := by
  rcases h with h | ⟨h1, h2⟩
  · unfold timespec_passed
    rw [if_pos (by omega)]
    simp only [decide_eq_true_eq]
    omega
  · unfold timespec_passed
    rw [if_neg (by omega)]
    simp only [decide_eq_true_eq]
    omega

theorem tick_stop_time (s : PwmProxy.St) (t : Timespec) :
    (PwmProxy.rumble_tick s t).ctx.stop_time = s.ctx.stop_time := by
  unfold PwmProxy.rumble_tick
  split_ifs <;> rfl

theorem tick_inactive (s : PwmProxy.St) (t : Timespec) (h : s.ctx.active = false) :
    (PwmProxy.rumble_tick s t).ctx.active = false
    ∧ (PwmProxy.rumble_tick s t).gpio.last_state = 0 := by
  unfold PwmProxy.rumble_tick
  rw [if_pos h]
  exact ⟨h, gpio_set_last _ 0⟩

theorem tick_expired (s : PwmProxy.St) (t : Timespec) (ha : s.ctx.active = true)
    (hp : timespec_passed t s.ctx.stop_time = true) :
    (PwmProxy.rumble_tick s t).ctx.active = false
    ∧ (PwmProxy.rumble_tick s t).gpio.last_state = 0 := by
  unfold PwmProxy.rumble_tick
  rw [if_neg (by simp [ha]), if_pos hp]
  exact ⟨rfl, gpio_set_last _ 0⟩

theorem foldl_tick_stop (u : PwmProxy.St) (ts : List Timespec) :
    (ts.foldl PwmProxy.rumble_tick u).ctx.stop_time = u.ctx.stop_time := by
  induction ts generalizing u with
  | nil => rfl
  | cons t rest ih => rw [List.foldl_cons, ih, tick_stop_time]

theorem tick_watchdog (u : PwmProxy.St) (ts : List Timespec) (t : Timespec)
    (h : ts_le u.ctx.stop_time t) :
    (PwmProxy.rumble_tick (ts.foldl PwmProxy.rumble_tick u) t).ctx.active = false
    ∧ (PwmProxy.rumble_tick (ts.foldl PwmProxy.rumble_tick u) t).gpio.last_state = 0 := by
  have hst : (ts.foldl PwmProxy.rumble_tick u).ctx.stop_time = u.ctx.stop_time :=
    foldl_tick_stop u ts
  cases hact : (ts.foldl PwmProxy.rumble_tick u).ctx.active with
  | false => exact tick_inactive _ t hact
  | true => exact tick_expired _ t hact (ts_le_passed _ _ (by rw [hst]; exact h))

theorem play_arm_eq (s : PwmProxy.St) (id val : Int) (now : Timespec)
    (hv : val ≠ 0) (h0 : 0 ≤ id) (h1 : id < (PwmProxy.RUMBLE_MAX_EFFECTS : Int))
    (hu : (s.ctx.slots.getD id.toNat slot0).in_use = true)
    (hdz : PwmProxy.RUMBLE_DEADZONE ≤
      (s.ctx.slots.getD id.toNat slot0).effect.strong_magnitude +
      (s.ctx.slots.getD id.toNat slot0).effect.weak_magnitude) :
    PwmProxy.rumble_play s id val now =
      ⟨⟨s.ctx.slots, true,
        (s.ctx.slots.getD id.toNat slot0).effect.strong_magnitude +
          (s.ctx.slots.getD id.toNat slot0).effect.weak_magnitude,
        timespec_add_ms now
          (if (s.ctx.slots.getD id.toNat slot0).effect.replay_length = 0 ∨
              (s.ctx.slots.getD id.toNat slot0).effect.replay_length >
                PwmProxy.SAFETY_TIMEOUT_MS
           then PwmProxy.SAFETY_TIMEOUT_MS
           else (s.ctx.slots.getD id.toNat slot0).effect.replay_length),
        s.ctx.pwm_counter⟩, s.gpio⟩ := by
  unfold PwmProxy.rumble_play
  rw [if_neg hv, if_neg (by push_neg; exact ⟨by omega, by omega, by simpa using hu⟩),
    if_neg (by omega)]

/-! Claim theorems about play, tick and the watchdog. -/

/-- C1 (amended): in the `part_000` variant, `rumble_play` with repeat value
0 is an unconditional stop: for every prior state and every id value it
deactivates the rumble state and commands the actuator off immediately, and
after any subsequent tick the state is still inactive and the actuator still
commanded off.  (In the `trimui_inputd_proxy.c` variant this guarantee needs
the id to name an in-range, in-use slot whenever the state is active; see
the counterexample.) -/
theorem play_zero_unconditional_stop_pwm (s : PwmProxy.St) (id : Int) (now t : Timespec) :
    (PwmProxy.rumble_play s id 0 now).ctx.active = false
    ∧ (PwmProxy.rumble_play s id 0 now).gpio.last_state = 0
    ∧ (PwmProxy.rumble_tick (PwmProxy.rumble_play s id 0 now) t).ctx.active = false
    ∧ (PwmProxy.rumble_tick (PwmProxy.rumble_play s id 0 now) t).gpio.last_state = 0 := by
  have hp : PwmProxy.rumble_play s id 0 now =
      { s with ctx := { s.ctx with active := false }, gpio := gpio_set s.gpio 0 } := by
    unfold PwmProxy.rumble_play
    rw [if_pos rfl]
  refine ⟨by rw [hp], by rw [hp]; exact gpio_set_last _ 0, ?_, ?_⟩
  · rw [hp]
    unfold PwmProxy.rumble_tick
    rw [if_pos rfl]
  · rw [hp]
    unfold PwmProxy.rumble_tick
    rw [if_pos rfl]
    exact gpio_set_last _ 0

/-- C1 counterexample: in `trimui_inputd_proxy.c`, from the reachable state
with slot 0 uploaded and armed (actuator on until t = 100 ms), the stop
command `rumble_play_effect(5, 0)` hits the not-in-use early return, so the
state stays active and the actuator is still commanded on after the next
tick — refuting that play(id, 0) stops for every id. -/
theorem play_zero_invalid_id_counterexample :
    (FfProxy.rumble_play_effect ffArmed 5 0 ⟨0, 1000000⟩).rs.rumble_active = true
    ∧ (FfProxy.rumble_tick (FfProxy.rumble_play_effect ffArmed 5 0 ⟨0, 1000000⟩)
        ⟨0, 2000000⟩).rs.rumble_active = true
    ∧ (FfProxy.rumble_tick (FfProxy.rumble_play_effect ffArmed 5 0 ⟨0, 1000000⟩)
        ⟨0, 2000000⟩).gpio.last_state = 1 := by decide

/-- C2: arming an in-use effect whose combined (sum) intensity clears the
deadzone stores the absolute deadline now + (if the requested duration is
zero then the default, which in this variant equals the 3000 ms safety
ceiling, else min(duration, ceiling)); and after any sequence of further
ticks, a tick at or after that deadline leaves the state inactive with the
actuator commanded off — so actuation never outlives the deadline by more
than one tick even with no further commands. -/
theorem play_arm_deadline_and_watchdog (s : PwmProxy.St) (id val : Int) (now : Timespec)
    (hv : val ≠ 0) (h0 : 0 ≤ id) (h1 : id < (PwmProxy.RUMBLE_MAX_EFFECTS : Int))
    (hu : (s.ctx.slots.getD id.toNat slot0).in_use = true)
    (hdz : PwmProxy.RUMBLE_DEADZONE ≤
      (s.ctx.slots.getD id.toNat slot0).effect.strong_magnitude +
      (s.ctx.slots.getD id.toNat slot0).effect.weak_magnitude) :
    (PwmProxy.rumble_play s id val now).ctx.active = true
    ∧ (PwmProxy.rumble_play s id val now).ctx.magnitude =
        (s.ctx.slots.getD id.toNat slot0).effect.strong_magnitude +
        (s.ctx.slots.getD id.toNat slot0).effect.weak_magnitude
    ∧ (PwmProxy.rumble_play s id val now).ctx.stop_time =
        timespec_add_ms now
          (if (s.ctx.slots.getD id.toNat slot0).effect.replay_length = 0
           then PwmProxy.SAFETY_TIMEOUT_MS
           else min (s.ctx.slots.getD id.toNat slot0).effect.replay_length
                    PwmProxy.SAFETY_TIMEOUT_MS)
    ∧ (∀ (ts : List Timespec) (t : Timespec),
        ts_le (PwmProxy.rumble_play s id val now).ctx.stop_time t →
        (PwmProxy.rumble_tick (ts.foldl PwmProxy.rumble_tick
            (PwmProxy.rumble_play s id val now)) t).ctx.active = false
        ∧ (PwmProxy.rumble_tick (ts.foldl PwmProxy.rumble_tick
            (PwmProxy.rumble_play s id val now)) t).gpio.last_state = 0) := by
  have he := play_arm_eq s id val now hv h0 h1 hu hdz
  have hdur :
      (if (s.ctx.slots.getD id.toNat slot0).effect.replay_length = 0 ∨
          (s.ctx.slots.getD id.toNat slot0).effect.replay_length >
            PwmProxy.SAFETY_TIMEOUT_MS
       then PwmProxy.SAFETY_TIMEOUT_MS
       else (s.ctx.slots.getD id.toNat slot0).effect.replay_length) =
      (if (s.ctx.slots.getD id.toNat slot0).effect.replay_length = 0
       then PwmProxy.SAFETY_TIMEOUT_MS
       else min (s.ctx.slots.getD id.toNat slot0).effect.replay_length
                PwmProxy.SAFETY_TIMEOUT_MS) := by
    simp only [Nat.min_def]
    split_ifs <;> omega
  refine ⟨by rw [he], by rw [he], ?_, fun ts t hlast => tick_watchdog _ ts t hlast⟩
  rw [he]
  exact congrArg (timespec_add_ms now) hdur

/-- C2 witness: arming slot 0 (intensity 50000, requested duration 100 ms)
at time 0 stores the deadline 100 ms, and a tick at 1 s finds the state
stopped with the actuator off. -/
theorem play_arm_deadline_and_watchdog_witness :
    (PwmProxy.rumble_play pwmSt 0 1 ⟨0, 0⟩).ctx.active = true
    ∧ (PwmProxy.rumble_play pwmSt 0 1 ⟨0, 0⟩).ctx.stop_time = ⟨0, 100000000⟩
    ∧ (PwmProxy.rumble_tick (PwmProxy.rumble_play pwmSt 0 1 ⟨0, 0⟩)
        ⟨1, 0⟩).ctx.active = false
    ∧ (PwmProxy.rumble_tick (PwmProxy.rumble_play pwmSt 0 1 ⟨0, 0⟩)
        ⟨1, 0⟩).gpio.last_state = 0 := by
  obtain ⟨ha, -, hs, hw⟩ :=
    play_arm_deadline_and_watchdog pwmSt 0 1 ⟨0, 0⟩ (by decide) (by decide) (by decide)
      (by decide) (by decide)
  obtain ⟨hw1, hw2⟩ := hw [] ⟨1, 0⟩ (by rw [hs]; decide)
  refine ⟨ha, by rw [hs]; decide, hw1, hw2⟩

/-- C3: a tick that finds the state active with the deadline not passed
commands the actuator continuously on whenever the stored intensity is at or
above the high threshold (leaving the phase counter untouched), and for an
intensity strictly between the deadzone and the threshold it advances the
phase counter by one and commands on exactly when the new counter value is
in the leading half of the 4-tick window — so exactly 2 of every 4
consecutive such ticks command on. -/
theorem tick_full_drive_and_pwm_duty (u : PwmProxy.St) (t : Timespec)
    (ha : u.ctx.active = true) (hnp : timespec_passed t u.ctx.stop_time = false) :
    (PwmProxy.PWM_THRESHOLD ≤ u.ctx.magnitude →
      PwmProxy.rumble_tick u t = { u with gpio := gpio_set u.gpio 1 }
      ∧ (PwmProxy.rumble_tick u t).gpio.last_state = 1)
    ∧ (PwmProxy.RUMBLE_DEADZONE < u.ctx.magnitude →
       u.ctx.magnitude < PwmProxy.PWM_THRESHOLD →
      (PwmProxy.rumble_tick u t).ctx.pwm_counter = u.ctx.pwm_counter + 1
      ∧ (PwmProxy.rumble_tick u t).gpio.last_state =
          (if (u.ctx.pwm_counter + 1) % 4 < 2 then 1 else 0)
      ∧ ((List.range 4).countP
          fun i => decide ((u.ctx.pwm_counter + 1 + i) % 4 < 2)) = 2) := by
  constructor
  · intro hmag
    have he : PwmProxy.rumble_tick u t = { u with gpio := gpio_set u.gpio 1 } := by
      unfold PwmProxy.rumble_tick
      rw [if_neg (by simp [ha]), if_neg (by simp [hnp]), if_pos hmag]
    exact ⟨he, by rw [he]; exact gpio_set_last _ 1⟩
  · intro hlo hhi
    have he : PwmProxy.rumble_tick u t =
        ⟨⟨u.ctx.slots, u.ctx.active, u.ctx.magnitude, u.ctx.stop_time,
          u.ctx.pwm_counter + 1⟩,
         gpio_set u.gpio (if (u.ctx.pwm_counter + 1) % 4 < 2 then 1 else 0)⟩ := by
      unfold PwmProxy.rumble_tick
      rw [if_neg (by simp [ha]), if_neg (by simp [hnp]), if_neg (by omega)]
    refine ⟨by rw [he], by rw [he]; exact gpio_set_last _ _, ?_⟩
    have hr : List.range 4 = [0, 1, 2, 3] := rfl
    rw [hr]
    simp only [List.countP_cons, List.countP_nil, decide_eq_true_eq]
    split_ifs <;> omega

/-- C3 witness: at full-drive intensity 50000 the tick commands on; at mid
intensity 3000 with phase counter 5 the tick advances the counter to 6 and
commands off (6 mod 4 = 2 is in the trailing half of the window). -/
theorem tick_full_drive_and_pwm_duty_witness :
    (PwmProxy.rumble_tick pwmHigh ⟨0, 0⟩).gpio.last_state = 1
    ∧ (PwmProxy.rumble_tick pwmMid ⟨0, 0⟩).ctx.pwm_counter = 6
    ∧ (PwmProxy.rumble_tick pwmMid ⟨0, 0⟩).gpio.last_state = 0 := by
  refine ⟨((tick_full_drive_and_pwm_duty pwmHigh ⟨0, 0⟩ rfl (by decide)).1
    (by decide)).2, ?_, ?_⟩
  · have h := ((tick_full_drive_and_pwm_duty pwmMid ⟨0, 0⟩ rfl (by decide)).2
      (by decide) (by decide)).1
    simpa using h
  · have h := ((tick_full_drive_and_pwm_duty pwmMid ⟨0, 0⟩ rfl (by decide)).2
      (by decide) (by decide)).2.1
    simpa using h

/-! Helper lemmas for the main-loop iteration and the table invariant. -/

theorem extOff_rfl (g : GpioState) : GpioExtOff g g :=
  ⟨[], by simp, by simp⟩

theorem extOff_trans {g1 g2 g3 : GpioState}
    (h12 : GpioExtOff g1 g2) (h23 : GpioExtOff g2 g3) : GpioExtOff g1 g3 := by
  obtain ⟨zs1, he1, hz1⟩ := h12
  obtain ⟨zs2, he2, hz2⟩ := h23
  refine ⟨zs1 ++ zs2, by rw [he2, he1, List.append_assoc], fun z hz => ?_⟩
  rcases List.mem_append.mp hz with h | h
  · exact hz1 z h
  · exact hz2 z h

theorem extOff_set_zero (g : GpioState) : GpioExtOff g (gpio_set g 0) :=
  ⟨[0], gpio_set_cmds g 0, by simp⟩

theorem step_extOff (s : PwmProxy.St) (m : Msg) (t : Timespec) :
    GpioExtOff s.gpio (PwmProxy.step s m t).gpio := by
  cases m with
  | upload eff => exact extOff_rfl _
  | erase id =>
    show GpioExtOff s.gpio (PwmProxy.rumble_erase s id).gpio
    unfold PwmProxy.rumble_erase
    split_ifs
    · exact extOff_set_zero _
    · exact extOff_rfl _
  | play id val =>
    show GpioExtOff s.gpio (PwmProxy.rumble_play s id val t).gpio
    unfold PwmProxy.rumble_play
    split_ifs
    · exact extOff_set_zero _
    · exact extOff_rfl _
    · exact extOff_set_zero _
    · exact extOff_rfl _

theorem foldl_step_extOff (s : PwmProxy.St) (msgs : List (Msg × Timespec)) :
    GpioExtOff s.gpio
      ((msgs.foldl (fun a mt => PwmProxy.step a mt.1 mt.2) s)).gpio := by
  induction msgs generalizing s with
  | nil => exact extOff_rfl _
  | cons mt rest ih =>
    rw [List.foldl_cons]
    exact extOff_trans (step_extOff s mt.1 mt.2) (ih _)

theorem play_slots (s : PwmProxy.St) (id val : Int) (now : Timespec) :
    (PwmProxy.rumble_play s id val now).ctx.slots = s.ctx.slots := by
  unfold PwmProxy.rumble_play
  split_ifs <;> rfl

theorem slotsInv_init : SlotsInv PwmProxy.initCtx := by
  constructor
  · rfl
  · intro i hi hin
    rw [show PwmProxy.initCtx.slots = List.replicate 16 slot0 from rfl,
      getD_replicate] at hin
    cases hin

theorem slotsInv_upload (c : PwmProxy.RumbleCtx) (eff : FFEffect) (h : SlotsInv c) :
    SlotsInv (PwmProxy.rumble_upload c eff).1 := by
  obtain ⟨hlen, hid⟩ := h
  have hm : (PwmProxy.RUMBLE_MAX_EFFECTS : Int) = 16 := rfl
  unfold PwmProxy.rumble_upload
  split_ifs with ht hneg hge
  · exact ⟨hlen, hid⟩
  · cases hf : firstFreeIdx c.slots with
    | none => exact ⟨hlen, hid⟩
    | some i =>
      have hilt : i < 16 := by have := firstFreeIdx_lt_length hf; omega
      constructor
      · simp [List.length_set, hlen]
      · intro j hj
        by_cases hij : i = j
        · subst hij
          rw [getD_set_self _ _ _ _ (by omega)]
          intro _
          rfl
        · rw [getD_set_of_ne _ _ _ hij]
          exact hid j hj
  · exact ⟨hlen, hid⟩
  · have h0 : 0 ≤ eff.id := by omega
    have hlt : eff.id.toNat < 16 := by omega
    constructor
    · simp [List.length_set, hlen]
    · intro j hj
      by_cases hij : eff.id.toNat = j
      · subst hij
        rw [getD_set_self _ _ _ _ (by omega)]
        intro _
        show eff.id = _
        omega
      · rw [getD_set_of_ne _ _ _ hij]
        exact hid j hj

theorem slotsInv_erase (s : PwmProxy.St) (id : Int) (h : SlotsInv s.ctx) :
    SlotsInv (PwmProxy.rumble_erase s id).ctx := by
  obtain ⟨hlen, hid⟩ := h
  have hm : (PwmProxy.RUMBLE_MAX_EFFECTS : Int) = 16 := rfl
  unfold PwmProxy.rumble_erase
  split_ifs with hc
  · constructor
    · simp [List.length_set, hlen]
    · intro j hj
      by_cases hij : id.toNat = j
      · subst hij
        rw [getD_set_self _ _ _ _ (by omega)]
        intro hin
        cases hin
      · rw [getD_set_of_ne _ _ _ hij]
        exact hid j hj
  · exact ⟨hlen, hid⟩

theorem slotsInv_step (s : PwmProxy.St) (m : Msg) (t : Timespec) (h : SlotsInv s.ctx) :
    SlotsInv (PwmProxy.step s m t).ctx := by
  cases m with
  | upload eff => exact slotsInv_upload s.ctx eff h
  | erase id => exact slotsInv_erase s id h
  | play id val =>
    obtain ⟨hlen, hid⟩ := h
    have hs : (PwmProxy.step s (Msg.play id val) t).ctx.slots = s.ctx.slots :=
      play_slots s id val t
    refine ⟨by rw [hs]; exact hlen, fun j hj => by rw [hs]; exact hid j hj⟩

theorem slotsInv_foldl (s : PwmProxy.St) (msgs : List (Msg × Timespec))
    (h : SlotsInv s.ctx) :
    SlotsInv ((msgs.foldl (fun a mt => PwmProxy.step a mt.1 mt.2) s)).ctx := by
  induction msgs generalizing s with
  | nil => exact h
  | cons mt rest ih =>
    rw [List.foldl_cons]
    exact ih _ (slotsInv_step s mt.1 mt.2 h)

/-! Claim theorems about the main loop and the table invariant. -/

/-- C4 (amended): one iteration of the `part_000` main loop processes every
drained control message before its single tick; when the drained batch ends
with a stop (a play message with repeat value 0), the whole iteration
appends only off-commands to the actuator command stream — no spurious
actuation pulse — and ends inactive with the actuator commanded off.  (In the
`trimui_inputd_proxy.c` variant, a play with nonzero repeat commands the
actuator on immediately inside the drain, so the same batch does produce a
transient on-command; see the counterexample.) -/
theorem iteration_play_then_stop_no_pulse (s : PwmProxy.St)
    (msgs l : List (Msg × Timespec)) (id : Int) (t now : Timespec)
    (h : msgs = l ++ [(Msg.play id 0, t)]) :
    GpioExtOff s.gpio (PwmProxy.loop_iteration s msgs now).gpio
    ∧ (PwmProxy.loop_iteration s msgs now).ctx.active = false
    ∧ (PwmProxy.loop_iteration s msgs now).gpio.last_state = 0 := by
  subst h
  have hfold : (l ++ [(Msg.play id 0, t)]).foldl
      (fun a mt => PwmProxy.step a mt.1 mt.2) s =
      PwmProxy.rumble_play (l.foldl (fun a mt => PwmProxy.step a mt.1 mt.2) s) id 0 t := by
    rw [List.foldl_append]
    rfl
  set w := l.foldl (fun a mt => PwmProxy.step a mt.1 mt.2) s with hw
  have hps : PwmProxy.rumble_play w id 0 t =
      { w with ctx := { w.ctx with active := false }, gpio := gpio_set w.gpio 0 } := by
    unfold PwmProxy.rumble_play
    rw [if_pos rfl]
  unfold PwmProxy.loop_iteration
  rw [hfold, hps]
  refine ⟨?_, ?_, ?_⟩
  · refine extOff_trans (foldl_step_extOff s l) (extOff_trans (extOff_set_zero w.gpio) ?_)
    unfold PwmProxy.rumble_tick
    rw [if_pos rfl]
    exact extOff_set_zero _
  · unfold PwmProxy.rumble_tick
    rw [if_pos rfl]
  · unfold PwmProxy.rumble_tick
    rw [if_pos rfl]
    exact gpio_set_last _ 0

/-- C4 witness: draining a play of slot 0 immediately followed by its stop
in one wakeup leaves the iteration's new command stream all-off, ending
inactive with the actuator off. -/
theorem iteration_play_then_stop_no_pulse_witness :
    GpioExtOff pwmSt.gpio
      (PwmProxy.loop_iteration pwmSt
        [(Msg.play 0 5, ⟨0, 0⟩), (Msg.play 0 0, ⟨0, 1⟩)] ⟨0, 2⟩).gpio
    ∧ (PwmProxy.loop_iteration pwmSt
        [(Msg.play 0 5, ⟨0, 0⟩), (Msg.play 0 0, ⟨0, 1⟩)] ⟨0, 2⟩).ctx.active = false
    ∧ (PwmProxy.loop_iteration pwmSt
        [(Msg.play 0 5, ⟨0, 0⟩), (Msg.play 0 0, ⟨0, 1⟩)] ⟨0, 2⟩).gpio.last_state = 0 :=
  iteration_play_then_stop_no_pulse pwmSt _ [(Msg.play 0 5, ⟨0, 0⟩)] 0 ⟨0, 1⟩ ⟨0, 2⟩ rfl

/-- C4 counterexample: in `trimui_inputd_proxy.c`, `rumble_play_effect` with
nonzero repeat commands the actuator on immediately, so a play of slot 0
followed by its stop drained in the same wakeup writes an on-then-off pulse
to the GPIO within one iteration, refuting that the actuator is never
commanded on in that situation. -/
theorem iteration_play_then_stop_pulse_counterexample :
    (FfProxy.loop_iteration ffUploaded
      [(Msg.play 0 1, ⟨0, 0⟩), (Msg.play 0 0, ⟨0, 1⟩)] ⟨0, 2⟩).gpio.writes = [1, 0]
    ∧ (1 : Int) ∈ (FfProxy.loop_iteration ffUploaded
      [(Msg.play 0 1, ⟨0, 0⟩), (Msg.play 0 0, ⟨0, 1⟩)] ⟨0, 2⟩).gpio.cmds
    ∧ (FfProxy.loop_iteration ffUploaded
      [(Msg.play 0 1, ⟨0, 0⟩), (Msg.play 0 0, ⟨0, 1⟩)] ⟨0, 2⟩).rs.rumble_active
        = false := by decide

/-- C6: starting from the zero-initialized table, after any sequence of
drained control messages (uploads and erases; play messages never touch the
table) the store has 16 slots, every in-use slot's stored identifier equals
its index, and hence all in-use identifiers are pairwise distinct and lie in
[0, 16). -/
theorem upload_erase_id_invariant (fd : Bool) (msgs : List (Msg × Timespec)) :
    (msgs.foldl (fun a mt => PwmProxy.step a mt.1 mt.2)
      (PwmProxy.initSt fd)).ctx.slots.length = 16
    ∧ (∀ i, i < 16 →
        (((msgs.foldl (fun a mt => PwmProxy.step a mt.1 mt.2)
          (PwmProxy.initSt fd)).ctx.slots.getD i slot0).in_use = true →
        ((msgs.foldl (fun a mt => PwmProxy.step a mt.1 mt.2)
          (PwmProxy.initSt fd)).ctx.slots.getD i slot0).effect.id = (i : Int)))
    ∧ (∀ i j, i < 16 → j < 16 →
        ((msgs.foldl (fun a mt => PwmProxy.step a mt.1 mt.2)
          (PwmProxy.initSt fd)).ctx.slots.getD i slot0).in_use = true →
        ((msgs.foldl (fun a mt => PwmProxy.step a mt.1 mt.2)
          (PwmProxy.initSt fd)).ctx.slots.getD j slot0).in_use = true →
        ((msgs.foldl (fun a mt => PwmProxy.step a mt.1 mt.2)
          (PwmProxy.initSt fd)).ctx.slots.getD i slot0).effect.id =
        ((msgs.foldl (fun a mt => PwmProxy.step a mt.1 mt.2)
          (PwmProxy.initSt fd)).ctx.slots.getD j slot0).effect.id → i = j)
    ∧ (∀ i, i < 16 →
        ((msgs.foldl (fun a mt => PwmProxy.step a mt.1 mt.2)
          (PwmProxy.initSt fd)).ctx.slots.getD i slot0).in_use = true →
        0 ≤ ((msgs.foldl (fun a mt => PwmProxy.step a mt.1 mt.2)
          (PwmProxy.initSt fd)).ctx.slots.getD i slot0).effect.id ∧
        ((msgs.foldl (fun a mt => PwmProxy.step a mt.1 mt.2)
          (PwmProxy.initSt fd)).ctx.slots.getD i slot0).effect.id < 16) := by
  obtain ⟨hlen, hid⟩ := slotsInv_foldl (PwmProxy.initSt fd) msgs slotsInv_init
  refine ⟨hlen, hid, fun i j hi hj hui huj he => ?_, fun i hi hui => ?_⟩
  · rw [hid i hi hui, hid j hj huj] at he
    omega
  · rw [hid i hi hui]
    exact ⟨by omega, by omega⟩

/-- C6 witness: after an id-less upload the assigned slot 0 stores
identifier 0. -/
theorem upload_erase_id_invariant_witness :
    (([(Msg.upload effNoId, (⟨0, 0⟩ : Timespec))].foldl
      (fun a mt => PwmProxy.step a mt.1 mt.2)
      (PwmProxy.initSt true)).ctx.slots.getD 0 slot0).effect.id = 0 :=
  (upload_erase_id_invariant true
    [(Msg.upload effNoId, ⟨0, 0⟩)]).2.1 0 (by decide) (by decide)
